import Mathlib

/-!
# Verification of `FormatSSVAE` (`src/FormatSSVAE/vae.py`)

A shallow embedding of the `FormatVAE` class: the generative `model`, the
inference `guide`, the `_preprocess_input` helper and the checkpoint I/O,
together with proofs of the specification's claims about them.

Representation choices:
* A one-hot character vector over the alphabet `ALL_LETTERS` is represented by
  the index of its hot entry (`Nat`); a rank-2 one-hot tensor of shape
  `(batch, |alphabet|)` is a `List Nat` of length `batch`; the timestep-major
  rank-3 tensor produced by the codec is a `List (List Nat)`.
* Real-valued tensors are nested lists of `Rat` (exact arithmetic stands in
  for the floating point the claims do not depend on).
* The external neural networks (`Encoder`, `Decoder`, `NeuralNet`) are
  abstract functions of the right shape, passed as arguments; their
  parameters are the functions themselves.
* Pseudo-random draws (`pyro.sample` without `obs`) are supplied by explicit
  oracle arguments, making every function below deterministic and executable.
-/

namespace FormatSSVAE

/-- An LSTM hidden/cell state pair, each of shape
`(num_layers, batch, hidden_size)`, for the decoder. -/
abbrev DecState := List (List (List Rat)) × List (List (List Rat))

/-- An LSTM hidden/cell state pair for the encoder (same layout). -/
abbrev EncState := List (List (List Rat)) × List (List (List Rat))

/-- Modelled from the spec: the character codec `strings_to_tensor` from
`FormatSSVAE.util.convert` is not under `src/`.  Per the spec (§2, §6), each
string is one-hot encoded over `letter_set`, truncated to `tensor_len`,
padded up to `tensor_len` (the padding representation is an
external-collaborator decision, abstracted here as an arbitrary index
`padIdx`), and the result is timestep-major: entry `i` is the batch of
character indices at timestep `i`. -/
def strings_to_tensor (letter_set : List Char) (padIdx tensor_len : Nat)
    (strings : List (List Char)) : List (List Nat) :=
  let encs := strings.map fun s =>
    (s.map fun c => letter_set.indexOf c).take tensor_len
      ++ List.replicate (tensor_len - s.length) padIdx
  (List.range tensor_len).map fun i => encs.map fun e => e.getD i padIdx

/-- Modelled from the spec: `chars_to_tensor` from `FormatSSVAE.util.convert`
is not under `src/`; it one-hot encodes a batch of single characters over
`letter_set` (shape `(batch, |alphabet|)`). -/
def chars_to_tensor (chars : List Char) (letter_set : List Char) : List Nat :=
  chars.map fun c => letter_set.indexOf c

/-- `FormatVAE._preprocess_input` (vae.py lines 107-113): returns the batch
size and the tensorized input, with the end-of-sequence character appended to
every string before encoding. -/
def preprocess_input (letter_set : List Char) (eos : Char) (padIdx maxLen : Nat)
    (x : List (List Char)) : Nat × List (List Nat) :=
  (x.length,
   strings_to_tensor letter_set padIdx maxLen (x.map fun s => s ++ [eos]))

/-- `self.latent_dim = decoder_hidden_size * 1 * 2` (vae.py line 17). -/
def latent_dim (decoder_hidden_size : Nat) : Nat :=
  decoder_hidden_size * 1 * 2

/-- vae.py line 43: `(z[:,:h].unsqueeze(0), z[:,h:].unsqueeze(0))` — the
latent draw `z` (shape `(batch, latent_dim)`) is split into its first
`decoder_hidden_size` and last `decoder_hidden_size` columns, each wrapped in
a new leading layer axis of length 1, seeding the decoder hidden/cell
state. -/
def decoderInitState (decoder_hidden_size : Nat) (z : List (List Rat)) :
    DecState :=
  ([z.map fun row => row.take decoder_hidden_size],
   [z.map fun row => row.drop decoder_hidden_size])

/-- The name of the per-timestep observation sample site: `f"x_{i}"`
(vae.py line 49). -/
def xSite (i : Nat) : String := "x_" ++ toString i

/-- vae.py line 54: truncate a string at the first occurrence of the
end-of-sequence character if there is one
(`string[:string.find(EOS_CHAR)] if string.find(EOS_CHAR) != -1 else string`). -/
def truncAtEOS (eos : Char) (s : List Char) : List Char :=
  match s.findIdx? (· == eos) with
  | some k => s.take k
  | none => s

/-- The decoder rollout of `FormatVAE.model` (vae.py lines 47-51), one
iteration per element of `x_tensor`.  Each step runs the decoder
(`decF input hidden`), then the sample site `x_i` is declared: with an
observation the drawn value is the observation (teacher forcing), without one
it is the pseudo-random draw `sampler i probs`; the drawn character indices
become the next input and their decoded characters are appended to the
accumulating outputs.  Returns the declared site names and the accumulated
outputs.  (Python raises on an out-of-range index / all-zero one-hot; the
embedding totalizes those reads with defaults.) -/
def modelLoop {π : Type} (letter_set : List Char)
    (decF : List Nat → DecState → π × DecState)
    (sampler : Nat → π → List Nat) :
    List (Option (List Nat)) → Nat → List Nat → DecState → List String →
      List (List Char) → List String × List (List Char)
  | [], _, _, _, sites, outputs => (sites, outputs)
  | ob :: rest, i, input, hidden, sites, outputs =>
    let step := decF input hidden
    let input' := match ob with
      | some row => row
      | none => sampler i step.1
    let outputs' := outputs.mapIdx fun j s =>
      s ++ [letter_set.getD (input'.getD j 0) ' ']
    modelLoop letter_set decF sampler rest (i + 1) input' step.2
      (sites ++ [xSite i]) outputs'

/-- `FormatVAE.model` (vae.py lines 26-55).  Arguments: the constants
(`letter_set`, `eos`, `padIdx`, `maxLen` stand for `ALL_LETTERS`, `EOS_CHAR`,
the codec padding and `MAX_STRING_LEN`), the decoder hidden size `h`, the
decoder forward function `decF`, the per-step categorical sampling oracle
`sampler`, the latent draw `z` for the site `"z"`, and the optional observed
batch `x`.  Returns the list of declared sample-site names and the returned
output strings. -/
def model {π : Type} (letter_set : List Char) (eos : Char)
    (padIdx maxLen h : Nat) (decF : List Nat → DecState → π × DecState)
    (sampler : Nat → π → List Nat) (z : List (List Rat))
    (x : Option (List (List Char))) : List String × List (List Char) :=
  let bt : Nat × List (Option (List Nat)) :=
    match x with
    | some xs =>
      let p := preprocess_input letter_set eos padIdx maxLen xs
      (p.1, p.2.map some)
    | none => (1, List.replicate maxLen none)
  let outputs : List (List Char) := List.replicate bt.1 []
  let decoder_hidden_state := decoderInitState h z
  let decoder_input := chars_to_tensor (List.replicate bt.1 eos) letter_set
  let lp := modelLoop letter_set decF sampler bt.2 0 decoder_input
    decoder_hidden_state ["z"] outputs
  (lp.1, lp.2.map (truncAtEOS eos))

/-- The result of `FormatVAE.guide` (vae.py lines 58-80): the declared
sample-site names and the posterior location and scale handed to the latent
normal distribution at site `"z"`. -/
structure GuideResult where
  sites : List String
  loc : List (List Rat)
  scale : List (List Rat)
  deriving DecidableEq, Repr

/-- `FormatVAE.guide` (vae.py lines 58-80).  `encInit` is
`Encoder.init_hidden`, `encF` is `Encoder.forward` (its first, discarded
output has abstract type `ε`), `loc_mlp` and `scale_mlp` are the two
projector networks.  The encoder is rolled over every timestep of the
preprocessed input; the final hidden and cell states are flattened
(`view(batch_size, -1)`), concatenated along the feature axis, and projected.
Note vae.py line 78: the scale is computed with `self.loc_mlp.forward`, not
`self.scale_mlp.forward`; `scale_mlp` is registered but never applied. -/
def guide {ε : Type} (encInit : Nat → EncState)
    (encF : List Nat → EncState → ε × EncState)
    (loc_mlp scale_mlp : List (List Rat) → List (List Rat))
    (letter_set : List Char) (eos : Char) (padIdx maxLen : Nat)
    (x : List (List Char)) : GuideResult :=
  let p := preprocess_input letter_set eos padIdx maxLen x
  let batch_size := p.1
  let x_tensor := p.2
  let finalState := (List.range maxLen).foldl
    (fun st i => (encF (x_tensor.getD i []) st).2) (encInit batch_size)
  let encoder_hidden := finalState.1.flatten
  let encoder_cell := finalState.2.flatten
  let flattened_lstm_output :=
    List.zipWith (fun a b => a ++ b) encoder_hidden encoder_cell
  let loc := loc_mlp flattened_lstm_output
  let scale := loc_mlp flattened_lstm_output
  { sites := ["z"], loc := loc, scale := scale }

/-- The four learned parameter sets of a `FormatVAE` instance, as saved and
restored by the checkpoint code (vae.py lines 83-104): one `state_dict` per
component, each of abstract type `θ`. -/
structure VAEParams (θ : Type) where
  encoder_lstm : θ
  decoder_lstm : θ
  loc_mlp : θ
  scale_mlp : θ
  deriving DecidableEq, Repr

/-- Modelled from the spec: `os.path.join(folder, filename)` for the
checkpoint file path. -/
def pathJoin (folder filename : String) : String :=
  folder ++ "/" ++ filename

/-- A file system fragment: maps a path to the checkpoint contents stored
there, if any (`none` = `os.path.exists` is false). -/
abbrev FileSystem (θ : Type) := String → Option (VAEParams θ)

/-- `FormatVAE.load_checkpoint` (vae.py lines 83-91).  Returns the parameters
held by the object after the call together with the raised error message, if
any: when the file is absent an exception `"No model in path {folder}"` is
raised before any `load_state_dict` runs, so the parameters are the original
ones; when the file is present all four parameter sets are replaced by the
stored ones. -/
def load_checkpoint {θ : Type} (fs : FileSystem θ) (self : VAEParams θ)
    (folder filename : String) : VAEParams θ × Option String :=
  let filepath := pathJoin folder filename
  match fs filepath with
  | none => (self, some ("No model in path " ++ folder))
  | some save_content =>
    ({ encoder_lstm := save_content.encoder_lstm
       decoder_lstm := save_content.decoder_lstm
       loc_mlp := save_content.loc_mlp
       scale_mlp := save_content.scale_mlp }, none)

/-- `FormatVAE.save_checkpoint` (vae.py lines 94-104): writes the current
four parameter sets to `os.path.join(folder, filename)` (directory creation
has no effect on the file map). -/
def save_checkpoint {θ : Type} (fs : FileSystem θ) (self : VAEParams θ)
    (folder filename : String) : FileSystem θ :=
  fun p => if p = pathJoin folder filename then
    some { encoder_lstm := self.encoder_lstm
           decoder_lstm := self.decoder_lstm
           loc_mlp := self.loc_mlp
           scale_mlp := self.scale_mlp }
  else fs p

/-- The networks owned by a `FormatVAE` object (vae.py lines 12-23), each
represented by its forward function (the function is the parameters). -/
structure VAENets (π ε : Type) where
  encoder_lstm_init : Nat → EncState
  encoder_lstm_forward : List Nat → EncState → ε × EncState
  decoder_lstm_forward : List Nat → DecState → π × DecState
  loc_mlp : List (List Rat) → List (List Rat)
  scale_mlp : List (List Rat) → List (List Rat)

/-- A call of the method `FormatVAE.model` on an object holding `nets`:
the body (vae.py lines 26-55) only reads `self.decoder_lstm`, so the call
returns the object state unchanged alongside the result. -/
def model_call {π ε : Type} (nets : VAENets π ε) (letter_set : List Char)
    (eos : Char) (padIdx maxLen h : Nat) (sampler : Nat → π → List Nat)
    (z : List (List Rat)) (x : Option (List (List Char))) :
    VAENets π ε × (List String × List (List Char)) :=
  (nets,
   model letter_set eos padIdx maxLen h nets.decoder_lstm_forward sampler z x)

/-- A call of the method `FormatVAE.guide` on an object holding `nets`: the
body (vae.py lines 58-80) only reads `self.encoder_lstm`, `self.loc_mlp` and
`self.scale_mlp`, so the call returns the object state unchanged alongside
the result. -/
def guide_call {π ε : Type} (nets : VAENets π ε) (letter_set : List Char)
    (eos : Char) (padIdx maxLen : Nat) (x : List (List Char)) :
    VAENets π ε × GuideResult :=
  (nets,
   guide nets.encoder_lstm_init nets.encoder_lstm_forward nets.loc_mlp
     nets.scale_mlp letter_set eos padIdx maxLen x)

/-! ### Helper lemmas -/

theorem truncAtEOS_eq_takeWhile (eos : Char) (s : List Char) :
    truncAtEOS eos s = s.takeWhile (fun c => !(c == eos)) := by
  induction s with
  | nil => rfl
  | cons a t ih =>
    unfold truncAtEOS at ih ⊢
    rw [List.findIdx?_cons, List.findIdx?_succ]
    by_cases h : (a == eos) = true
    · simp [h]
    · simp only [h, if_false, List.takeWhile_cons]
      rw [Bool.not_eq_true] at h
      simp only [h, Bool.not_false, if_true]
      cases hf : t.findIdx? (fun c => c == eos) with
      | none => rw [hf] at ih; simpa using ih
      | some k => rw [hf] at ih; simpa using ih

theorem not_mem_truncAtEOS (eos : Char) (s : List Char) :
    eos ∉ truncAtEOS eos s := by
  rw [truncAtEOS_eq_takeWhile]
  intro hmem
  have h := List.mem_takeWhile_imp hmem
  simp at h

theorem truncAtEOS_append_eos (eos : Char) (s r : List Char) (h : eos ∉ s) :
    truncAtEOS eos (s ++ eos :: r) = s := by
  rw [truncAtEOS_eq_takeWhile]
  induction s with
  | nil => simp
  | cons a t ih =>
    have ha : a ≠ eos := fun hae => h (hae ▸ List.mem_cons_self a t)
    have ht : eos ∉ t := fun hte => h (List.mem_cons_of_mem a hte)
    simp only [List.cons_append, List.takeWhile_cons]
    have hb : (a == eos) = false := beq_false_of_ne ha
    simp only [hb, Bool.not_false, if_true]
    rw [ih ht]

theorem modelLoop_length {π : Type} (L : List Char)
    (decF : List Nat → DecState → π × DecState)
    (sampler : Nat → π → List Nat) (obs : List (Option (List Nat))) :
    ∀ (i : Nat) (input : List Nat) (hidden : DecState) (sites : List String)
      (outputs : List (List Char)),
      (modelLoop L decF sampler obs i input hidden sites outputs).2.length
        = outputs.length := by
  induction obs with
  | nil => intro i input hidden sites outputs; rfl
  | cons ob rest ih =>
    intro i input hidden sites outputs
    simp only [modelLoop]
    rw [ih]
    simp

theorem modelLoop_sites {π : Type} (L : List Char)
    (decF : List Nat → DecState → π × DecState)
    (sampler : Nat → π → List Nat) (obs : List (Option (List Nat))) :
    ∀ (i : Nat) (input : List Nat) (hidden : DecState) (sites : List String)
      (outputs : List (List Char)),
      (modelLoop L decF sampler obs i input hidden sites outputs).1
        = sites ++ (List.range' i obs.length).map xSite := by
  induction obs with
  | nil => intro i input hidden sites outputs; simp [modelLoop]
  | cons ob rest ih =>
    intro i input hidden sites outputs
    simp only [modelLoop]
    rw [ih]
    simp [List.length_cons, List.range'_succ]

/-- The outputs accumulation performed by `modelLoop` when every timestep is
observed: each observed row of character indices is decoded and appended.
(Used to characterize the teacher-forced path of `model`.) -/
def teacherOutputs (L : List Char) :
    List (List Nat) → List (List Char) → List (List Char)
  | [], outputs => outputs
  | row :: rest, outputs =>
    teacherOutputs L rest
      (outputs.mapIdx fun j s => s ++ [L.getD (row.getD j 0) ' '])

theorem modelLoop_observed {π : Type} (L : List Char)
    (decF : List Nat → DecState → π × DecState)
    (sampler : Nat → π → List Nat) (rows : List (List Nat)) :
    ∀ (i : Nat) (input : List Nat) (hidden : DecState) (sites : List String)
      (outputs : List (List Char)),
      (modelLoop L decF sampler (rows.map some) i input hidden sites
        outputs).2 = teacherOutputs L rows outputs := by
  induction rows with
  | nil => intro i input hidden sites outputs; rfl
  | cons row rest ih =>
    intro i input hidden sites outputs
    simp only [List.map_cons, modelLoop, teacherOutputs]
    exact ih _ _ _ _ _

theorem teacherOutputs_singleton (L : List Char) (ks : List Nat) :
    ∀ acc : List Char,
      teacherOutputs L (ks.map fun k => [k]) [acc]
        = [acc ++ ks.map fun k => L.getD k ' '] := by
  induction ks with
  | nil => intro acc; simp [teacherOutputs]
  | cons k rest ih =>
    intro acc
    simp only [List.map_cons, teacherOutputs, List.mapIdx_cons, List.mapIdx_nil]
    rw [ih]
    simp

theorem map_getD_range {α : Type} (l : List α) (d : α) :
    (List.range l.length).map (fun i => l.getD i d) = l := by
  induction l with
  | nil => rfl
  | cons a t ih =>
    rw [List.length_cons, List.range_succ_eq_map, List.map_cons, List.map_map]
    congr 1

theorem getD_indexOf_of_mem (l : List Char) (c : Char) (hc : c ∈ l)
    (d : Char) : l.getD (l.indexOf c) d = c := by
  have hlt : l.indexOf c < l.length := List.indexOf_lt_length.mpr hc
  rw [List.getD_eq_getElem l d hlt]
  exact List.getElem_indexOf hlt

/-! ### Injectivity of the decimal numeral in the per-timestep site names

`xSite i = "x_" ++ toString i` uses `Nat.repr`; to show the site names are
pairwise distinct we prove `Nat.repr` injective by exhibiting a left
inverse. -/

/-- The decimal digit characters of `n`, most significant first: the
fuel-free version of `Nat.toDigitsCore` at base 10. -/
def rep10 (n : Nat) : List Char :=
  if h : n / 10 = 0 then [Nat.digitChar (n % 10)]
  else rep10 (n / 10) ++ [Nat.digitChar (n % 10)]
decreasing_by
  exact Nat.div_lt_self
    (Nat.pos_of_ne_zero fun h0 => h (by simp [h0])) (by norm_num)

theorem toDigitsCore_eq_rep10 :
    ∀ (f n : Nat) (ds : List Char), n < f →
      Nat.toDigitsCore 10 f n ds = rep10 n ++ ds := by
  intro f
  induction f with
  | zero => intro n ds h; omega
  | succ f ih =>
    intro n ds h
    by_cases h10 : n / 10 = 0
    · rw [rep10]
      simp [Nat.toDigitsCore, h10]
    · have hpos : 0 < n :=
        Nat.pos_of_ne_zero fun h0 => h10 (by simp [h0])
      have hlt : n / 10 < f :=
        Nat.lt_of_lt_of_le (Nat.div_lt_self hpos (by norm_num))
          (Nat.lt_succ_iff.mp h)
      rw [rep10]
      simp only [Nat.toDigitsCore, h10, if_false, dite_false]
      rw [ih (n / 10) _ hlt]
      simp

/-- Numeric value of a decimal digit character. -/
def digitVal (c : Char) : Nat := c.toNat - 48

theorem digitVal_digitChar : ∀ d : Nat, d < 10 →
    digitVal (Nat.digitChar d) = d := by decide

theorem foldl_rep10 (n : Nat) :
    ∀ acc : Nat,
      (rep10 n).foldl (fun a c => 10 * a + digitVal c) acc
        = acc * 10 ^ (rep10 n).length + n := by
  induction n using Nat.strong_induction_on with
  | _ n ih =>
    intro acc
    by_cases h10 : n / 10 = 0
    · have hlt : n < 10 := by omega
      rw [rep10]
      simp only [h10, dite_true, List.foldl_cons, List.foldl_nil,
        List.length_cons, List.length_nil]
      rw [digitVal_digitChar _ (Nat.mod_lt n (by norm_num)),
        Nat.mod_eq_of_lt hlt]
      ring
    · have hpos : 0 < n :=
        Nat.pos_of_ne_zero fun h0 => h10 (by simp [h0])
      rw [rep10]
      simp only [h10, dite_false, List.foldl_append, List.foldl_cons,
        List.foldl_nil, List.length_append, List.length_cons,
        List.length_nil]
      rw [ih (n / 10) (Nat.div_lt_self hpos (by norm_num)) acc,
        digitVal_digitChar _ (Nat.mod_lt n (by norm_num))]
      calc 10 * (acc * 10 ^ (rep10 (n / 10)).length + n / 10) + n % 10
          = acc * (10 ^ (rep10 (n / 10)).length * 10)
              + (10 * (n / 10) + n % 10) := by ring
        _ = acc * 10 ^ ((rep10 (n / 10)).length + (0 + 1)) + n := by
            rw [pow_succ, Nat.div_add_mod]

/-- Decimal value of a digit string: a left inverse of `rep10`. -/
def unrep (l : List Char) : Nat :=
  l.foldl (fun a c => 10 * a + digitVal c) 0

theorem unrep_rep10 (n : Nat) : unrep (rep10 n) = n := by
  have h := foldl_rep10 n 0
  simpa [unrep] using h

theorem rep10_injective : Function.Injective rep10 := by
  intro a b h
  have h2 := congrArg unrep h
  rwa [unrep_rep10, unrep_rep10] at h2

theorem natRepr_eq_rep10 (n : Nat) : Nat.repr n = (rep10 n).asString := by
  unfold Nat.repr Nat.toDigits
  rw [toDigitsCore_eq_rep10 (n + 1) n [] (Nat.lt_succ_self n)]
  simp

theorem natRepr_injective : Function.Injective Nat.repr := by
  intro a b h
  rw [natRepr_eq_rep10, natRepr_eq_rep10] at h
  have hdata : rep10 a = rep10 b := congrArg String.data h
  exact rep10_injective hdata

theorem xSite_injective : Function.Injective xSite := by
  intro i j h
  have hdata : "x_".data ++ (Nat.repr i).data
      = "x_".data ++ (Nat.repr j).data := congrArg String.data h
  have hrepr : (Nat.repr i).data = (Nat.repr j).data :=
    List.append_cancel_left hdata
  exact natRepr_injective (String.ext hrepr)

/-! ### Claim theorems -/

/-- C3: for every call of the model, the list of strings returned has length
equal to the number of strings in the observed batch when an observation is
given, and length 1 when called with no observation (`x = None`). -/
theorem model_output_count {π : Type} (letter_set : List Char) (eos : Char)
    (padIdx maxLen h : Nat) (decF : List Nat → DecState → π × DecState)
    (sampler : Nat → π → List Nat) (z : List (List Rat))
    (x : Option (List (List Char))) :
    (model letter_set eos padIdx maxLen h decF sampler z x).2.length
      = match x with
        | some xs => xs.length
        | none => 1 := by
  cases x with
  | none =>
    simp only [model]
    rw [List.length_map, modelLoop_length]
    simp
  | some xs =>
    simp only [model]
    rw [List.length_map, modelLoop_length]
    simp [preprocess_input]

/-- C4: every string returned by the model contains no occurrence of the
end-of-sequence symbol: each accumulated output is truncated at the first
end-of-sequence symbol. -/
theorem model_outputs_no_eos {π : Type} (letter_set : List Char) (eos : Char)
    (padIdx maxLen h : Nat) (decF : List Nat → DecState → π × DecState)
    (sampler : Nat → π → List Nat) (z : List (List Rat))
    (x : Option (List (List Char))) :
    ∀ s ∈ (model letter_set eos padIdx maxLen h decF sampler z x).2,
      eos ∉ s := by
  intro s hs
  simp only [model] at hs
  rw [List.mem_map] at hs
  obtain ⟨t, _, rfl⟩ := hs
  exact not_mem_truncAtEOS eos t

/-- Witness for C4: a concrete unconditional generation run; the returned
string contains no end-of-sequence character. -/
theorem model_outputs_no_eos_witness : '$' ∉ (['a', 'a'] : List Char) :=
  model_outputs_no_eos ['a', '$'] '$' 0 2 1
    (fun _ st => ((), st)) (fun _ _ => [0]) [[]] none ['a', 'a'] (by decide)

/-- C6: the latent code dimensionality equals `2 × decoder hidden width`,
and the model splits each latent draw into its first `h` and last `h`
components, each half reshaped with a prepended layer axis of length 1 to
seed the decoder hidden and cell state. -/
theorem model_latent_split (h : Nat) (z : List (List Rat))
    (hz : ∀ row ∈ z, row.length = latent_dim h) :
    latent_dim h = 2 * h
  ∧ (decoderInitState h z).1.length = 1
  ∧ (decoderInitState h z).2.length = 1
  ∧ (decoderInitState h z).1.getD 0 [] = z.map (fun row => row.take h)
  ∧ (decoderInitState h z).2.getD 0 [] = z.map (fun row => row.drop h)
  ∧ ∀ row ∈ z, (row.take h).length = h ∧ (row.drop h).length = h
      ∧ row.take h ++ row.drop h = row := by
  refine ⟨by rw [latent_dim]; ring, rfl, rfl, rfl, rfl, ?_⟩
  intro row hrow
  have hlen := hz row hrow
  rw [latent_dim] at hlen
  refine ⟨?_, ?_, List.take_append_drop h row⟩
  · rw [List.length_take, hlen]; omega
  · rw [List.length_drop, hlen]; omega

/-- Witness for C6: hidden width 1, one latent row of length
`latent_dim 1 = 2`. -/
theorem model_latent_split_witness :
    latent_dim 1 = 2 * 1
  ∧ (decoderInitState 1 [[(1 : Rat), 2]]).1.length = 1
  ∧ (decoderInitState 1 [[(1 : Rat), 2]]).2.length = 1
  ∧ (decoderInitState 1 [[(1 : Rat), 2]]).1.getD 0 []
      = [[(1 : Rat), 2]].map (fun row => row.take 1)
  ∧ (decoderInitState 1 [[(1 : Rat), 2]]).2.getD 0 []
      = [[(1 : Rat), 2]].map (fun row => row.drop 1)
  ∧ ∀ row ∈ [[(1 : Rat), 2]], (row.take 1).length = 1
      ∧ (row.drop 1).length = 1 ∧ row.take 1 ++ row.drop 1 = row :=
  model_latent_split 1 [[(1 : Rat), 2]] (by decide)

/-- C7: when the checkpoint file is absent, `load_checkpoint` raises
`"No model in path {folder}"` and none of the four parameter sets changes;
when the file is present, all four parameter sets are restored from it. -/
theorem load_checkpoint_spec {θ : Type} (fs : FileSystem θ)
    (p : VAEParams θ) (folder filename : String) :
    (fs (pathJoin folder filename) = none →
      load_checkpoint fs p folder filename
        = (p, some ("No model in path " ++ folder)))
  ∧ ∀ sc : VAEParams θ, fs (pathJoin folder filename) = some sc →
      load_checkpoint fs p folder filename = (sc, none) := by
  constructor
  · intro hnone
    simp [load_checkpoint, hnone]
  · intro sc hsome
    simp [load_checkpoint, hsome]

/-- Witness for C7: an empty file system raises the "no model in path"
error and leaves the parameters untouched; a file system holding a
checkpoint at the expected path restores all four parameter sets. -/
theorem load_checkpoint_spec_witness :
    load_checkpoint (fun _ => (none : Option (VAEParams Nat))) ⟨1, 2, 3, 4⟩
        "nn_model" "checkpoint.pth.tar"
      = (⟨1, 2, 3, 4⟩, some ("No model in path " ++ "nn_model"))
  ∧ load_checkpoint
        (fun q => if q = pathJoin "nn_model" "checkpoint.pth.tar" then
          some (⟨5, 6, 7, 8⟩ : VAEParams Nat) else none)
        ⟨1, 2, 3, 4⟩ "nn_model" "checkpoint.pth.tar"
      = (⟨5, 6, 7, 8⟩, none) :=
  ⟨(load_checkpoint_spec (fun _ => none) ⟨1, 2, 3, 4⟩ "nn_model"
      "checkpoint.pth.tar").1 rfl,
   (load_checkpoint_spec _ ⟨1, 2, 3, 4⟩ "nn_model" "checkpoint.pth.tar").2
      ⟨5, 6, 7, 8⟩ (by simp)⟩

/-- C8: saving a checkpoint and loading it back from the same path restores
all four parameter sets exactly, so any forward pass computed from the
restored parameters equals the one computed from the saved parameters. -/
theorem checkpoint_roundtrip {θ α : Type} (fs : FileSystem θ)
    (p q : VAEParams θ) (folder filename : String)
    (forward : VAEParams θ → α) :
    load_checkpoint (save_checkpoint fs p folder filename) q folder filename
      = (p, none)
  ∧ forward (load_checkpoint (save_checkpoint fs p folder filename) q folder
      filename).1 = forward p := by
  have h1 : load_checkpoint (save_checkpoint fs p folder filename) q folder
      filename = (p, none) := by
    simp [load_checkpoint, save_checkpoint]
  exact ⟨h1, by rw [h1]⟩

/-- C9: `model` and `guide` leave all four networks (the parameters) of the
object unchanged: each call returns the result alongside the untouched
parameter state. -/
theorem model_guide_preserve_params {π ε : Type} (nets : VAENets π ε)
    (letter_set : List Char) (eos : Char) (padIdx maxLen h : Nat)
    (sampler : Nat → π → List Nat) (z : List (List Rat))
    (x : Option (List (List Char))) (xg : List (List Char)) :
    (model_call nets letter_set eos padIdx maxLen h sampler z x).1 = nets
  ∧ (guide_call nets letter_set eos padIdx maxLen xg).1 = nets :=
  ⟨rfl, rfl⟩

/-- C10: with an observed batch the decoder is fully teacher-forced, so the
returned strings depend only on the preprocessed observation: runs with
different decoder parameters, different sampling oracles, different latent
draws (and even different hidden widths) return identical string lists. -/
theorem model_observed_output_independent {α β : Type}
    (letter_set : List Char) (eos : Char) (padIdx maxLen hw1 hw2 : Nat)
    (decF1 : List Nat → DecState → α × DecState)
    (decF2 : List Nat → DecState → β × DecState)
    (sampler1 : Nat → α → List Nat) (sampler2 : Nat → β → List Nat)
    (z1 z2 : List (List Rat)) (xs : List (List Char)) :
    (model letter_set eos padIdx maxLen hw1 decF1 sampler1 z1 (some xs)).2
      = (model letter_set eos padIdx maxLen hw2 decF2 sampler2 z2
          (some xs)).2 := by
  simp only [model]
  rw [modelLoop_observed, modelLoop_observed]

/-- C2: the latent sample site is named `"z"` in both the model and the
guide; the model's per-timestep observation sites are `x_0, x_1, …`, indexed
by timestep, pairwise distinct, and the very same sites are declared whether
an observation is given or not (`x = None` included). -/
theorem sample_site_names {π ε : Type} (letter_set : List Char) (eos : Char)
    (padIdx maxLen h : Nat) (decF : List Nat → DecState → π × DecState)
    (sampler : Nat → π → List Nat) (z : List (List Rat))
    (x : Option (List (List Char))) (encInit : Nat → EncState)
    (encF : List Nat → EncState → ε × EncState)
    (locM scaleM : List (List Rat) → List (List Rat))
    (xg : List (List Char)) :
    (model letter_set eos padIdx maxLen h decF sampler z x).1
      = "z" :: (List.range maxLen).map xSite
  ∧ (guide encInit encF locM scaleM letter_set eos padIdx maxLen xg).sites
      = ["z"]
  ∧ ((List.range maxLen).map xSite).Nodup := by
  refine ⟨?_, rfl, List.Nodup.map xSite_injective (List.nodup_range maxLen)⟩
  cases x with
  | none =>
    simp only [model]
    rw [modelLoop_sites]
    simp [List.range_eq_range']
  | some xs =>
    simp only [model]
    rw [modelLoop_sites]
    simp [preprocess_input, strings_to_tensor, List.range_eq_range']

/-- C5: for an input string `s` over the alphabet, free of the
end-of-sequence character and of length at most `maxLen - 1`, running the
model fully teacher-forced on the observed batch `[s]` returns `[s]`
exactly — for every decoder, sampling oracle and latent draw, hence in
particular for deterministic/peaked decoder probabilities. -/
theorem model_teacher_forced_roundtrip {π : Type} (letter_set : List Char)
    (eos : Char) (padIdx maxLen h : Nat)
    (decF : List Nat → DecState → π × DecState)
    (sampler : Nat → π → List Nat) (z : List (List Rat)) (s : List Char)
    (hlen : s.length + 1 ≤ maxLen) (hmem : ∀ c ∈ s, c ∈ letter_set)
    (heos : eos ∈ letter_set) (hnos : eos ∉ s) :
    (model letter_set eos padIdx maxLen h decF sampler z (some [s])).2
      = [s] := by
  have hlen2 : (s ++ [eos]).length = s.length + 1 := by simp
  have htake : (((s ++ [eos]).map fun c => letter_set.indexOf c).take maxLen)
      = (s ++ [eos]).map fun c => letter_set.indexOf c :=
    List.take_of_length_le (by rw [List.length_map, hlen2]; exact hlen)
  have hel : (((s ++ [eos]).map fun c => letter_set.indexOf c).take maxLen
      ++ List.replicate (maxLen - (s ++ [eos]).length) padIdx).length
        = maxLen := by
    rw [htake, List.length_append, List.length_map, List.length_replicate,
      hlen2]
    omega
  simp only [model]
  rw [modelLoop_observed]
  simp only [preprocess_input, strings_to_tensor, List.map_cons,
    List.map_nil, List.replicate_succ, List.replicate_zero]
  have hrows : (List.range maxLen).map (fun i =>
        [(((s ++ [eos]).map fun c => letter_set.indexOf c).take maxLen
          ++ List.replicate (maxLen - (s ++ [eos]).length) padIdx).getD i
            padIdx])
      = (((s ++ [eos]).map fun c => letter_set.indexOf c).take maxLen
          ++ List.replicate (maxLen - (s ++ [eos]).length) padIdx).map
            fun k => [k] := by
    conv_rhs => rw [← map_getD_range
      ((((s ++ [eos]).map fun c => letter_set.indexOf c).take maxLen
        ++ List.replicate (maxLen - (s ++ [eos]).length) padIdx)) padIdx]
    rw [List.map_map, hel]
    rfl
  rw [hrows,
    show List.replicate [s].length ([] : List Char) = [[]] from rfl,
    teacherOutputs_singleton]
  have hdec : (((s ++ [eos]).map fun c => letter_set.indexOf c).take maxLen
      ++ List.replicate (maxLen - (s ++ [eos]).length) padIdx).map
        (fun k => letter_set.getD k ' ')
      = s ++ eos :: List.replicate (maxLen - (s ++ [eos]).length)
          (letter_set.getD padIdx ' ') := by
    rw [htake, List.map_append, List.map_map, List.map_replicate]
    have hback : (s ++ [eos]).map
        ((fun k => letter_set.getD k ' ') ∘ fun c => letter_set.indexOf c)
        = s ++ [eos] := by
      refine (List.map_congr_left ?_).trans (List.map_id' (s ++ [eos]))
      intro c hc
      show letter_set.getD (letter_set.indexOf c) ' ' = c
      refine getD_indexOf_of_mem letter_set c ?_ ' '
      rcases List.mem_append.mp hc with hcs | hce
      · exact hmem c hcs
      · rw [List.mem_singleton.mp hce]; exact heos
    rw [hback, List.append_assoc]
    rfl
  rw [List.nil_append]
  rw [hdec, List.map_cons, List.map_nil, truncAtEOS_append_eos eos s _ hnos]

/-- Witness for C5: alphabet `{a, b, c, $}`, `maxLen = 4`, `s = "ab"`; the
teacher-forced model reproduces `"ab"`. -/
theorem model_teacher_forced_roundtrip_witness :
    (model ['a', 'b', 'c', '$'] '$' 0 4 1
      (fun _ st => (PUnit.unit, st)) (fun _ _ => [0]) [[]]
      (some [['a', 'b']])).2 = [['a', 'b']] :=
  model_teacher_forced_roundtrip ['a', 'b', 'c', '$'] '$' 0 4 1
    (fun _ st => (PUnit.unit, st)) (fun _ _ => [0]) [[]] ['a', 'b']
    (by decide) (by decide) (by decide) (by decide)

/-- C1: contrary to the claim, the guide's posterior scale is NOT computed
with the independently parameterized scale network: vae.py line 78 reuses
`self.loc_mlp`, so the scale always equals the mean projection, and at a
concrete input where the two projectors differ the scale disagrees with the
scale-network projection. -/
theorem guide_scale_reuses_loc_mlp :
    (∀ {ε : Type} (encInit : Nat → EncState)
      (encF : List Nat → EncState → ε × EncState)
      (locM scaleM : List (List Rat) → List (List Rat))
      (letter_set : List Char) (eos : Char) (padIdx maxLen : Nat)
      (x : List (List Char)),
        (guide encInit encF locM scaleM letter_set eos padIdx maxLen x).scale
          = (guide encInit encF locM scaleM letter_set eos padIdx maxLen
              x).loc)
  ∧ (guide (fun b => ([List.replicate b [0]], [List.replicate b [0]]))
      (fun _ st => (PUnit.unit, st)) (fun _ => [[1]]) (fun _ => [[2]])
      ['a', 'b', '$'] '$' 0 2 [['a']]).scale = [[1]]
  ∧ (guide (fun b => ([List.replicate b [0]], [List.replicate b [0]]))
      (fun _ st => (PUnit.unit, st)) (fun _ => [[1]]) (fun _ => [[2]])
      ['a', 'b', '$'] '$' 0 2 [['a']]).scale
      ≠ (fun _ : List (List Rat) => [[(2 : Rat)]])
          (List.zipWith (fun a b => a ++ b) [[(0 : Rat)]] [[(0 : Rat)]]) :=
  ⟨fun _ _ _ _ _ _ _ _ _ => rfl, by decide, by decide⟩

end FormatSSVAE
